import Mathlib

/-!
Verification of the `ppt_translator` repository (`multi_improved.py`).

The Python code is shallowly embedded: Python float arithmetic is modelled
by exact rationals (`ℚ`), Python strings by `String`, Python dicts by
association lists with insert-or-overwrite-in-place semantics, raised
exceptions by `Except`, and filesystem / network side effects by explicit
state or by oracle parameters (the parsed provider response, the behaviour
of one language's pipeline run).  Text measurement (`get_text_width`, which
calls reportlab's `stringWidth` and falls back to `len(text) * size * 0.6`)
is abstracted as an arbitrary function parameter `measure : String → ℚ → ℚ`.
Python's `str.strip` / `str.lower` / `str.lstrip('.')` and `max` are
embedded as the character-list functions `pyStrip` / `pyLower` /
`pyLstripDot` and `maxQ`, which the kernel can evaluate.
-/

namespace PptTranslator

/-- Python `s.strip()`: drop whitespace from both ends. -/
def pyStrip (s : String) : String :=
  String.mk (((s.data.dropWhile Char.isWhitespace).reverse.dropWhile Char.isWhitespace).reverse)

/-- Python `s.lower()`. -/
def pyLower (s : String) : String :=
  String.mk (s.data.map Char.toLower)

/-- Python `s.lstrip(".")`: drop leading dots. -/
def pyLstripDot (s : String) : String :=
  String.mk (s.data.dropWhile (· == '.'))

/-- Python `max` on two rationals (kernel-evaluable, unlike lattice `max`). -/
def maxQ (a b : ℚ) : ℚ := if a ≤ b then b else a

/-- Embeds `calculate_font_size(text, max_width, current_size, min_size)`
(`multi_improved.py`, lines 63-102).  `measure` stands for
`get_text_width`; the float literals `1.1`, `1.5` are the exact rationals
`11/10`, `3/2`. -/
def calculate_font_size (measure : String → ℚ → ℚ) (text : String)
    (max_width current_size min_size : ℚ) : ℚ :=
  if pyStrip text = "" then current_size
  else
    let current_width := measure text current_size
    if current_width ≤ max_width * (11/10) then current_size
    else
      let conservative_min :=
        if current_size ≥ 20 then current_size - 2
        else if current_size ≥ 14 then current_size - (3/2)
        else current_size - 1
      let absolute_min :=
        if current_size ≥ 24 then 20
        else if current_size ≥ 16 then 13
        else maxQ min_size 10
      let final_min := maxQ conservative_min absolute_min
      let scale_factor := max_width / current_width
      let new_size := current_size * scale_factor
      maxQ new_size final_min

/-- The tiered absolute floor of `calculate_font_size` (the `absolute_min`
computed at lines 87-92 of `multi_improved.py`). -/
def tieredFloor (current_size min_size : ℚ) : ℚ :=
  if current_size ≥ 24 then 20
  else if current_size ≥ 16 then 13
  else maxQ min_size 10

/-- A text run: the atomic unit of translatable text plus its font size in
points.  `none` models python-pptx's `run.font.size is None`; an explicit
size of `0` is falsy in Python and is likewise skipped by the capture. -/
structure Run where
  text : String
  fontSize : Option ℚ
deriving DecidableEq

/-- Embeds `translate_with_google` (lines 104-130).  `resp` is the parsed
JSON response's first element `result[0]` as its list of segment texts
`item[0]`; `none` models a request or parse failure, which the `except`
handler turns into returning the original text. -/
def translate_with_google (text : String) (resp : Option (List String)) : String :=
  if pyStrip text = "" then text
  else
    match resp with
    | none => text
    | some segments =>
        if segments ≠ [] then String.join (segments.filter (fun s => s ≠ ""))
        else text

/-- Oracle for one iteration of the walker's per-run loop: either the
translation call completed and the google response was `r`, or the loop
body raised (`exn`), which `translate_pptx` catches for that run alone. -/
inductive RunEvent
  | resp (r : Option (List String))
  | exn (msg : String)
deriving DecidableEq

/-- State of `translate_pptx`'s first pass over one text container: the
mutated runs so far, the captured baseline (`original_size`), the
accumulated translated text (`all_translated_text` with its trailing
spaces) and this container's contribution to `total_translated`. -/
structure ContState where
  runs : List Run
  baseline : ℚ
  buffer : String
  count : Nat
deriving DecidableEq

/-- One iteration of the per-run loop of `translate_pptx` (lines 215-234
for text frames, 269-288 for table cells).  `dflt` is the container's
default baseline (12.0 for text frames, 10.0 for table cells); the size
capture replicates the sentinel test `original_size == dflt`.  An `exn`
event raises after the capture but before the text mutation, count and
buffer updates, and is caught by the per-run `except`. -/
def stepRun (dflt : ℚ) (st : ContState) (p : Run × RunEvent) : ContState :=
  let r := p.1
  if r.text ≠ "" ∧ pyStrip r.text ≠ "" then
    let b :=
      match r.fontSize with
      | some s => if s ≠ 0 ∧ st.baseline = dflt then s else st.baseline
      | none => st.baseline
    match p.2 with
    | RunEvent.exn _ => { st with baseline := b, runs := st.runs ++ [r] }
    | RunEvent.resp resp =>
        let t := translate_with_google r.text resp
        { runs := st.runs ++ [{ r with text := t }]
          baseline := b
          buffer := st.buffer ++ t ++ " "
          count := st.count + 1 }
  else { st with runs := st.runs ++ [r] }

/-- First pass of `translate_pptx` over one whole container. -/
def processContainerRuns (dflt : ℚ) (pairs : List (Run × RunEvent)) : ContState :=
  pairs.foldl (stepRun dflt) { runs := [], baseline := dflt, buffer := "", count := 0 }

/-- Second pass of `translate_pptx` for a text frame (lines 236-251):
recompute one uniform size from the accumulated buffer and the captured
baseline, and apply it to every non-blank run when it moved by more than
0.5pt.  `shapeWidth` is the shape width in points (`none`/0 are falsy
`shape.width`). -/
def resizeTextFrame (measure : String → ℚ → ℚ) (shapeWidth : Option ℚ)
    (st : ContState) : List Run :=
  if pyStrip st.buffer ≠ "" then
    match shapeWidth with
    | some w =>
        if w ≠ 0 then
          let available := w - 20
          let optimal := calculate_font_size measure (pyStrip st.buffer) available st.baseline 11
          if 1/2 < |optimal - st.baseline| then
            st.runs.map (fun r =>
              if pyStrip r.text ≠ "" then { r with fontSize := some optimal } else r)
          else st.runs
        else st.runs
    | none => st.runs
  else st.runs

/-- Second pass of `translate_pptx` for a table cell (lines 290-302):
fixed available width 100 and minimum 10. -/
def resizeTableCell (measure : String → ℚ → ℚ) (st : ContState) : List Run :=
  if pyStrip st.buffer ≠ "" then
    let optimal := calculate_font_size measure (pyStrip st.buffer) 100 st.baseline 10
    if 1/2 < |optimal - st.baseline| then
      st.runs.map (fun r =>
        if pyStrip r.text ≠ "" then { r with fontSize := some optimal } else r)
    else st.runs
  else st.runs

/-- Modelled from the spec's words for C1: the first encountered font size
among the container's non-blank runs, defaulting when no such run has an
explicit size. -/
def firstEncounteredSize (dflt : ℚ) (runs : List Run) : ℚ :=
  match (runs.filter (fun r => pyStrip r.text ≠ "")).filterMap (fun r => r.fontSize) with
  | [] => dflt
  | s :: _ => s

/-- The allowed output formats (`ALLOWED_FORMATS`, line 29). -/
def ALLOWED_FORMATS : List String := ["pptx", "pdf"]

/-- Python `fmt.lower().strip().lstrip(".")` (line 333). -/
def cleanFormat (fmt : String) : String :=
  pyLstripDot (pyStrip (pyLower fmt))

/-- One iteration of the normalization loop of `_normalize_formats`
(lines 331-335): keep a cleaned, non-empty format not seen before. -/
def addFormat (acc : List String) (fmt : String) : List String :=
  if fmt ≠ "" then
    let cleaned := cleanFormat fmt
    if cleaned ≠ "" ∧ cleaned ∉ acc then acc ++ [cleaned] else acc
  else acc

/-- Insertion into a sorted list of strings. -/
def insertSorted (a : String) : List String → List String
  | [] => [a]
  | b :: bs => if a ≤ b then a :: b :: bs else b :: insertSorted a bs

/-- Insertion sort, modelling Python `sorted` over the invalid-format set
(line 340). -/
def sortStrings (l : List String) : List String :=
  l.foldr insertSorted []

/-- Embeds `_normalize_formats(formats)` (lines 327-341).  `none` is
Python `None`; the raised `ValueError` is the `.error` case, carrying the
sorted list of unsupported formats that its message names. -/
def _normalize_formats (formats : Option (List String)) :
    Except (List String) (List String) :=
  match formats with
  | none => Except.ok ["pptx"]
  | some fmts =>
      if fmts = [] then Except.ok ["pptx"]
      else
        let normalized := fmts.foldl addFormat []
        let normalized := if normalized = [] then ["pptx"] else normalized
        let invalid := normalized.filter (fun f => f ∉ ALLOWED_FORMATS)
        if invalid = [] then Except.ok normalized
        else Except.error (sortStrings invalid)

/-- One language's entry in the summary:
`translations[language] = {"count": ..., "outputs": ...}` (line 438). -/
structure LangResult where
  count : Nat
  outputs : List (String × String)
deriving DecidableEq

/-- Oracle for one language's loop body inside the per-language `try`
(lines 416-439): either the translate step raises (`raises = some msg`,
caught at line 441), or it completes returning `count` (`translate_pptx`'s
return value), with `pptxSaved` telling whether the pptx file exists
afterwards (line 429) and `pdfResult` the LibreOffice conversion outcome
when it is attempted. -/
structure LangBehavior where
  raises : Option String
  count : Nat
  pptxSaved : Bool
  pdfResult : Except String String

/-- Environment of one `translate_pptx_multi` call: whether the input file
exists, whether the soffice binary resolves, each language's pipeline
behaviour, and whether ZIP bundling succeeds. -/
structure OrchEnv where
  inputExists : Bool
  sofficeAvailable : Bool
  behavior : String → LangBehavior
  zipOk : Bool

/-- The per-language loop state plus the observable filesystem effects:
created directories and the languages whose loop body has started. -/
structure OrchState where
  translations : List (String × LangResult)
  errors : List String
  dirs : List String
  processed : List String

/-- Python dict assignment `d[k] = v`: overwrite in place if the key is
present, else append. -/
def dictInsert (d : List (String × LangResult)) (k : String) (v : LangResult) :
    List (String × LangResult) :=
  if k ∈ d.map Prod.fst then d.map (fun p => if p.1 = k then (k, v) else p)
  else d ++ [(k, v)]

/-- Line 395: `[lang.strip() for lang in target_langs if lang and
lang.strip()]`. -/
def cleanLanguages (target_langs : List String) : List String :=
  target_langs.filterMap (fun l =>
    if l ≠ "" ∧ pyStrip l ≠ "" then some (pyStrip l) else none)

/-- The per-language pptx output path
`{root}/{language}/{stem}_{language}.pptx` (lines 418-420). -/
def pptxPathOf (root stem lang : String) : String :=
  root ++ "/" ++ lang ++ "/" ++ stem ++ "_" ++ lang ++ ".pptx"

/-- The outputs map recorded for a language whose loop body completed
(lines 425-436): the pptx path is recorded unconditionally whenever
"pptx" was requested; the pdf path only when conversion was attempted and
succeeded. -/
def langOutputs (env : OrchEnv) (fmts : List String) (root stem lang : String) :
    List (String × String) :=
  let b := env.behavior lang
  (if "pptx" ∈ fmts then [("pptx", pptxPathOf root stem lang)] else []) ++
    (if "pdf" ∈ fmts ∧ b.pptxSaved then
      match b.pdfResult with
      | Except.ok p => [("pdf", p)]
      | Except.error _ => []
    else [])

/-- The summary entry recorded for a language whose loop body completed. -/
def langValue (env : OrchEnv) (fmts : List String) (root stem lang : String) :
    LangResult :=
  ⟨(env.behavior lang).count, langOutputs env fmts root stem lang⟩

/-- One iteration of the per-language loop (lines 415-443): create the
language directory, run the translate step, record outputs and errors;
an exception from the body is caught and recorded as
`f"{language}: {exc}"`. -/
def processLanguage (env : OrchEnv) (root stem : String) (fmts : List String)
    (st : OrchState) (lang : String) : OrchState :=
  let st' : OrchState :=
    { st with dirs := st.dirs ++ [root ++ "/" ++ lang]
              processed := st.processed ++ [lang] }
  match (env.behavior lang).raises with
  | some m => { st' with errors := st'.errors ++ [lang ++ ": " ++ m] }
  | none =>
      let b := env.behavior lang
      let errs :=
        if "pdf" ∈ fmts ∧ b.pptxSaved then
          match b.pdfResult with
          | Except.ok _ => st'.errors
          | Except.error e => st'.errors ++ [lang ++ " PDF export failed: " ++ e]
        else st'.errors
      { st' with errors := errs
                 translations :=
                   dictInsert st'.translations lang (langValue env fmts root stem lang) }

/-- The orchestrator's returned summary dict (lines 454-461). -/
structure Summary where
  input : String
  output_root : String
  zip_path : Option String
  formats : List String
  translations : List (String × LangResult)
  errors : List String

/-- Embeds `translate_pptx_multi` (lines 388-461): the returned summary or
the raised exception, paired with the final loop state (whose `dirs` and
`processed` fields are the observable side effects).  `stem` is taken to
be the input file name itself; paths are symbolic strings. -/
def translate_pptx_multi (env : OrchEnv) (input_file : String)
    (target_langs : List String) (formats : Option (List String))
    (output_root : Option String) (zip_output : Bool) :
    Except String Summary × OrchState :=
  let st0 : OrchState := ⟨[], [], [], []⟩
  if ¬ env.inputExists then
    (Except.error ("Input file '" ++ input_file ++ "' not found."), st0)
  else
    let languages := cleanLanguages target_langs
    if languages = [] then
      (Except.error "At least one valid target language must be provided.", st0)
    else
      match _normalize_formats formats with
      | Except.error invalid =>
          (Except.error ("Unsupported formats: " ++ String.intercalate ", " invalid), st0)
      | Except.ok fmts =>
          if "pdf" ∈ fmts ∧ ¬ env.sofficeAvailable then
            (Except.error "LibreOffice (soffice) not found.", st0)
          else
            let root := output_root.getD (input_file ++ "_translations")
            let st1 : OrchState := { st0 with dirs := [root] }
            let st2 := languages.foldl (processLanguage env root input_file fmts) st1
            let zipPath :=
              if zip_output ∧ st2.translations ≠ [] ∧ env.zipOk
              then some (root ++ ".zip") else none
            let errs :=
              if zip_output ∧ st2.translations ≠ [] ∧ ¬ env.zipOk
              then st2.errors ++ ["ZIP packaging failed"] else st2.errors
            (Except.ok { input := input_file, output_root := root,
                         zip_path := zipPath, formats := fmts,
                         translations := st2.translations, errors := errs }, st2)

/-- One step of first-occurrence-order deduplication. -/
def dedupStep (acc : List String) (l : String) : List String :=
  if l ∈ acc then acc else acc ++ [l]

/-- First-occurrence-order deduplication of a list of language codes. -/
def dedupFirst (ls : List String) : List String :=
  ls.foldl dedupStep []

theorem maxQ_eq_max (a b : ℚ) : maxQ a b = max a b := by
  simp [maxQ, max_def]

theorem addFormat_nodup {acc : List String} (fmt : String) (h : acc.Nodup) :
    (addFormat acc fmt).Nodup := by
  simp only [addFormat]
  split
  · by_cases hc : cleanFormat fmt ≠ "" ∧ cleanFormat fmt ∉ acc
    · rw [if_pos hc]
      simp [List.nodup_append, h, hc.2]
    · simp [hc, h]
  · exact h

theorem foldl_addFormat_nodup :
    ∀ (fmts acc : List String), acc.Nodup → (fmts.foldl addFormat acc).Nodup := by
  intro fmts
  induction fmts with
  | nil => intro acc h; exact h
  | cons f fs ih => intro acc h; exact ih _ (addFormat_nodup f h)

theorem mem_insertSorted (x a : String) :
    ∀ l : List String, x ∈ insertSorted a l ↔ x = a ∨ x ∈ l := by
  intro l
  induction l with
  | nil => simp [insertSorted]
  | cons b bs ih =>
      simp only [insertSorted]
      split
      · simp
      · simp [ih]
        tauto

theorem mem_sortStrings (x : String) :
    ∀ l : List String, x ∈ sortStrings l ↔ x ∈ l := by
  intro l
  induction l with
  | nil => simp [sortStrings]
  | cons b bs ih =>
      simp only [sortStrings, List.foldr_cons] at ih ⊢
      rw [mem_insertSorted]
      simp [ih]

theorem insertSorted_ne_nil (a : String) (l : List String) :
    insertSorted a l ≠ [] := by
  cases l with
  | nil => simp [insertSorted]
  | cons b bs =>
      simp only [insertSorted]
      split <;> simp

theorem sortStrings_ne_nil (a : String) (l : List String) :
    sortStrings (a :: l) ≠ [] := by
  simp only [sortStrings, List.foldr_cons]
  exact insertSorted_ne_nil a _

theorem keys_dictInsert (d : List (String × LangResult)) (k : String) (v : LangResult) :
    (dictInsert d k v).map Prod.fst = dedupStep (d.map Prod.fst) k := by
  unfold dictInsert dedupStep
  by_cases h : k ∈ d.map Prod.fst
  · rw [if_pos h, if_pos h, List.map_map]
    apply List.map_congr_left
    intro p _
    by_cases hp : p.1 = k
    · simp [Function.comp, hp]
    · simp [Function.comp, hp]
  · rw [if_neg h, if_neg h]
    simp

theorem mem_keys_dictInsert_of_mem (d : List (String × LangResult)) (k : String)
    (v : LangResult) (x : String) (hx : x ∈ d.map Prod.fst) :
    x ∈ (dictInsert d k v).map Prod.fst := by
  rw [keys_dictInsert]
  unfold dedupStep
  split <;> simp [hx]

theorem mem_keys_dictInsert_self (d : List (String × LangResult)) (k : String)
    (v : LangResult) : k ∈ (dictInsert d k v).map Prod.fst := by
  rw [keys_dictInsert]
  unfold dedupStep
  split
  · next h => exact h
  · simp

theorem dictInsert_pair_mem_self (d : List (String × LangResult)) (k : String)
    (v : LangResult) : (k, v) ∈ dictInsert d k v := by
  unfold dictInsert
  by_cases h : k ∈ d.map Prod.fst
  · rw [if_pos h]
    obtain ⟨p, hp, hfst⟩ := List.mem_map.mp h
    exact List.mem_map.mpr ⟨p, hp, by simp [hfst]⟩
  · rw [if_neg h]
    simp

theorem dictInsert_pair_mem_preserved (d : List (String × LangResult))
    (k k' : String) (v v' : LangResult) (h : (k, v) ∈ d)
    (hvv : k = k' → v = v') : (k, v) ∈ dictInsert d k' v' := by
  unfold dictInsert
  by_cases hk : k' ∈ d.map Prod.fst
  · rw [if_pos hk]
    refine List.mem_map.mpr ⟨(k, v), h, ?_⟩
    by_cases he : k = k'
    · simp [he, (hvv he).symm]
    · simp [he]
  · rw [if_neg hk]
    exact List.mem_append_left _ h

theorem processLanguage_translations_of_raises (env : OrchEnv) (root stem : String)
    (fmts : List String) (st : OrchState) (lang m : String)
    (h : (env.behavior lang).raises = some m) :
    (processLanguage env root stem fmts st lang).translations = st.translations := by
  simp [processLanguage, h]

theorem processLanguage_translations_of_ok (env : OrchEnv) (root stem : String)
    (fmts : List String) (st : OrchState) (lang : String)
    (h : (env.behavior lang).raises = none) :
    (processLanguage env root stem fmts st lang).translations
      = dictInsert st.translations lang (langValue env fmts root stem lang) := by
  simp [processLanguage, h]

theorem processLanguage_errors_superset (env : OrchEnv) (root stem : String)
    (fmts : List String) (st : OrchState) (lang : String) (x : String)
    (hx : x ∈ st.errors) :
    x ∈ (processLanguage env root stem fmts st lang).errors := by
  unfold processLanguage
  cases hr : (env.behavior lang).raises with
  | some m => simp [hx]
  | none =>
      by_cases hc : "pdf" ∈ fmts ∧ (env.behavior lang).pptxSaved = true
      · cases hp : (env.behavior lang).pdfResult with
        | ok p => simp [hc, hp, hx]
        | error e => simp [hc, hp, hx]
      · simp [hc, hx]

theorem processLanguage_error_of_raises (env : OrchEnv) (root stem : String)
    (fmts : List String) (st : OrchState) (lang m : String)
    (h : (env.behavior lang).raises = some m) :
    (lang ++ ": " ++ m) ∈ (processLanguage env root stem fmts st lang).errors := by
  simp [processLanguage, h]

theorem processLanguage_keys_superset (env : OrchEnv) (root stem : String)
    (fmts : List String) (st : OrchState) (lang x : String)
    (hx : x ∈ st.translations.map Prod.fst) :
    x ∈ (processLanguage env root stem fmts st lang).translations.map Prod.fst := by
  cases hr : (env.behavior lang).raises with
  | some m => rw [processLanguage_translations_of_raises env root stem fmts st lang m hr]; exact hx
  | none =>
      rw [processLanguage_translations_of_ok env root stem fmts st lang hr]
      exact mem_keys_dictInsert_of_mem _ _ _ _ hx

theorem processLanguage_pair_preserved (env : OrchEnv) (root stem : String)
    (fmts : List String) (st : OrchState) (lang lang' : String)
    (h : (lang, langValue env fmts root stem lang) ∈ st.translations) :
    (lang, langValue env fmts root stem lang)
      ∈ (processLanguage env root stem fmts st lang').translations := by
  cases hr : (env.behavior lang').raises with
  | some m =>
      rw [processLanguage_translations_of_raises env root stem fmts st lang' m hr]
      exact h
  | none =>
      rw [processLanguage_translations_of_ok env root stem fmts st lang' hr]
      exact dictInsert_pair_mem_preserved _ _ _ _ _ h (fun he => by rw [he])

theorem foldl_processLanguage_errors_superset (env : OrchEnv) (root stem : String)
    (fmts : List String) :
    ∀ (ls : List String) (st : OrchState) (x : String), x ∈ st.errors →
      x ∈ (ls.foldl (processLanguage env root stem fmts) st).errors := by
  intro ls
  induction ls with
  | nil => intro st x hx; exact hx
  | cons l ls ih =>
      intro st x hx
      exact ih _ x (processLanguage_errors_superset env root stem fmts st l x hx)

theorem foldl_processLanguage_error_of_raises (env : OrchEnv) (root stem : String)
    (fmts : List String) (lang m : String)
    (h : (env.behavior lang).raises = some m) :
    ∀ (ls : List String) (st : OrchState), lang ∈ ls →
      (lang ++ ": " ++ m) ∈ (ls.foldl (processLanguage env root stem fmts) st).errors := by
  intro ls
  induction ls with
  | nil => intro st hmem; exact absurd hmem (List.not_mem_nil _)
  | cons l ls ih =>
      intro st hmem
      rcases List.mem_cons.mp hmem with he | hmem'
      · subst he
        exact foldl_processLanguage_errors_superset env root stem fmts ls _ _
          (processLanguage_error_of_raises env root stem fmts st lang m h)
      · exact ih _ hmem'

theorem foldl_processLanguage_keys_superset (env : OrchEnv) (root stem : String)
    (fmts : List String) :
    ∀ (ls : List String) (st : OrchState) (x : String),
      x ∈ st.translations.map Prod.fst →
      x ∈ ((ls.foldl (processLanguage env root stem fmts) st).translations.map Prod.fst) := by
  intro ls
  induction ls with
  | nil => intro st x hx; exact hx
  | cons l ls ih =>
      intro st x hx
      exact ih _ x (processLanguage_keys_superset env root stem fmts st l x hx)

theorem foldl_processLanguage_pair (env : OrchEnv) (root stem : String)
    (fmts : List String) (lang : String) :
    ∀ (ls : List String) (st : OrchState),
      (lang, langValue env fmts root stem lang) ∈ st.translations →
      (lang, langValue env fmts root stem lang)
        ∈ (ls.foldl (processLanguage env root stem fmts) st).translations := by
  intro ls
  induction ls with
  | nil => intro st h; exact h
  | cons l ls ih =>
      intro st h
      exact ih _ (processLanguage_pair_preserved env root stem fmts st lang l h)

theorem foldl_processLanguage_pair_of_ok (env : OrchEnv) (root stem : String)
    (fmts : List String) (lang : String)
    (h : (env.behavior lang).raises = none) :
    ∀ (ls : List String) (st : OrchState), lang ∈ ls →
      (lang, langValue env fmts root stem lang)
        ∈ (ls.foldl (processLanguage env root stem fmts) st).translations := by
  intro ls
  induction ls with
  | nil => intro st hmem; exact absurd hmem (List.not_mem_nil _)
  | cons l ls ih =>
      intro st hmem
      rcases List.mem_cons.mp hmem with he | hmem'
      · subst he
        apply foldl_processLanguage_pair env root stem fmts lang ls
        rw [processLanguage_translations_of_ok env root stem fmts st lang h]
        exact dictInsert_pair_mem_self _ _ _
      · exact ih _ hmem'

theorem foldl_processLanguage_keys_eq (env : OrchEnv) (root stem : String)
    (fmts : List String) :
    ∀ (ls : List String) (st : OrchState),
      (∀ l ∈ ls, (env.behavior l).raises = none) →
      ((ls.foldl (processLanguage env root stem fmts) st).translations.map Prod.fst)
        = ls.foldl dedupStep (st.translations.map Prod.fst) := by
  intro ls
  induction ls with
  | nil => intro st _; rfl
  | cons l ls ih =>
      intro st h
      have hl : (env.behavior l).raises = none := h l (List.mem_cons_self l ls)
      have hrest : ∀ x ∈ ls, (env.behavior x).raises = none :=
        fun x hx => h x (List.mem_cons_of_mem l hx)
      simp only [List.foldl_cons]
      rw [ih _ hrest]
      congr 1
      rw [processLanguage_translations_of_ok env root stem fmts st l hl]
      exact keys_dictInsert _ _ _

theorem dedupStep_nodup (acc : List String) (l : String) (h : acc.Nodup) :
    (dedupStep acc l).Nodup := by
  unfold dedupStep
  split
  · exact h
  · next hn => simp [List.nodup_append, h, hn]

theorem foldl_dedupStep_nodup :
    ∀ (ls acc : List String), acc.Nodup → (ls.foldl dedupStep acc).Nodup := by
  intro ls
  induction ls with
  | nil => intro acc h; exact h
  | cons l ls ih => intro acc h; exact ih _ (dedupStep_nodup acc l h)

/-- When all validation passes, `translate_pptx_multi` runs the
per-language fold and returns the summary built from it (shared
unfolding helper). -/
theorem translate_pptx_multi_ok_unfold (env : OrchEnv) (input_file : String)
    (target_langs : List String) (formats : Option (List String))
    (output_root : Option String) (zip_output : Bool) (fmts : List String)
    (hin : env.inputExists = true)
    (hlang : cleanLanguages target_langs ≠ [])
    (hfmt : _normalize_formats formats = Except.ok fmts)
    (hpdf : "pdf" ∈ fmts → env.sofficeAvailable = true) :
    translate_pptx_multi env input_file target_langs formats output_root zip_output
      = (Except.ok
          { input := input_file
            output_root := output_root.getD (input_file ++ "_translations")
            zip_path :=
              if zip_output ∧
                  ((cleanLanguages target_langs).foldl
                    (processLanguage env (output_root.getD (input_file ++ "_translations"))
                      input_file fmts)
                    ⟨[], [], [output_root.getD (input_file ++ "_translations")], []⟩).translations
                    ≠ [] ∧ env.zipOk
              then some (output_root.getD (input_file ++ "_translations") ++ ".zip") else none
            formats := fmts
            translations :=
              ((cleanLanguages target_langs).foldl
                (processLanguage env (output_root.getD (input_file ++ "_translations"))
                  input_file fmts)
                ⟨[], [], [output_root.getD (input_file ++ "_translations")], []⟩).translations
            errors :=
              if zip_output ∧
                  ((cleanLanguages target_langs).foldl
                    (processLanguage env (output_root.getD (input_file ++ "_translations"))
                      input_file fmts)
                    ⟨[], [], [output_root.getD (input_file ++ "_translations")], []⟩).translations
                    ≠ [] ∧ ¬ env.zipOk
              then ((cleanLanguages target_langs).foldl
                    (processLanguage env (output_root.getD (input_file ++ "_translations"))
                      input_file fmts)
                    ⟨[], [], [output_root.getD (input_file ++ "_translations")], []⟩).errors
                  ++ ["ZIP packaging failed"]
              else ((cleanLanguages target_langs).foldl
                    (processLanguage env (output_root.getD (input_file ++ "_translations"))
                      input_file fmts)
                    ⟨[], [], [output_root.getD (input_file ++ "_translations")], []⟩).errors },
         (cleanLanguages target_langs).foldl
            (processLanguage env (output_root.getD (input_file ++ "_translations"))
              input_file fmts)
            ⟨[], [], [output_root.getD (input_file ++ "_translations")], []⟩) := by
  unfold translate_pptx_multi
  rw [hfmt]
  by_cases hp : "pdf" ∈ fmts
  · simp only [hin, hlang, hp, hpdf hp]
    simp
  · simp only [hin, hlang, hp]
    simp

/-- On the shrink branch the result dominates the tiered floor (shared
helper). -/
theorem fit_ge_floor_of_overflow (measure : String → ℚ → ℚ)
    (text : String) (max_width current_size min_size : ℚ)
    (hblank : pyStrip text ≠ "")
    (hover : ¬ measure text current_size ≤ max_width * (11/10)) :
    tieredFloor current_size min_size ≤
      calculate_font_size measure text max_width current_size min_size := by
  simp only [calculate_font_size, tieredFloor, hblank, hover, if_neg, if_false,
    maxQ_eq_max]
  exact le_trans (le_max_right _ _) (le_max_right _ _)

end PptTranslator

namespace PptTranslator

/-- C4: for every non-blank text whose measured width is at most 110% of
`max_width`, `calculate_font_size` returns exactly the input
`current_size`, unchanged. -/
theorem C4_fit_within_tolerance_keeps_size (measure : String → ℚ → ℚ)
    (text : String) (max_width current_size min_size : ℚ)
    (hblank : pyStrip text ≠ "")
    (hfits : measure text current_size ≤ max_width * (11/10)) :
    calculate_font_size measure text max_width current_size min_size = current_size := by
  simp [calculate_font_size, hblank, hfits]

/-- C4 witness: a concrete non-blank text that fits keeps its size. -/
theorem C4_witness :
    calculate_font_size (fun _ _ => 50) "a" 100 8 9 = 8 :=
  C4_fit_within_tolerance_keeps_size (fun _ _ => 50) "a" 100 8 9
    (by decide) (by norm_num)

/-- C3 counterexample: the claim quantifies over every input, but when the
text fits within the 110% tolerance the input size is returned unchanged
even if it is below the tiered floor: at size 8 with `min_size = 9` the
floor is 10, yet 8 is returned. -/
theorem C3_counterexample :
    calculate_font_size (fun _ _ => 50) "b" 100 8 9 = 8 ∧
      tieredFloor 8 9 = 10 ∧ (8 : ℚ) < 10 := by
  refine ⟨?_, ?_, by norm_num⟩
  · have h : pyStrip "b" ≠ "" := by decide
    norm_num [calculate_font_size, h]
  · norm_num [tieredFloor, maxQ]

/-- C3 amended: on the shrink branch (non-blank text whose measured width
exceeds 110% of `max_width`) the returned size is never below the tiered
absolute floor for the current size's band. -/
theorem C3_amended_floor_on_shrink (measure : String → ℚ → ℚ)
    (text : String) (max_width current_size min_size : ℚ)
    (hblank : pyStrip text ≠ "")
    (hover : ¬ measure text current_size ≤ max_width * (11/10)) :
    tieredFloor current_size min_size ≤
      calculate_font_size measure text max_width current_size min_size :=
  fit_ge_floor_of_overflow measure text max_width current_size min_size hblank hover

/-- C3 amended witness: shrinking from 5pt with `min_size = 9` never goes
below the floor 10. -/
theorem C3_amended_witness :
    tieredFloor 5 9 ≤ calculate_font_size (fun _ _ => 1000) "aa" 10 5 9 :=
  C3_amended_floor_on_shrink (fun _ _ => 1000) "aa" 10 5 9
    (by decide) (by norm_num)

/-- C9: a non-blank text that overflows while the current size is below
10pt is *enlarged*: the result is at least 10pt, strictly greater than the
current size. -/
theorem C9_enlarges_small_fonts (measure : String → ℚ → ℚ)
    (text : String) (max_width current_size min_size : ℚ)
    (hblank : pyStrip text ≠ "")
    (hover : ¬ measure text current_size ≤ max_width * (11/10))
    (hsmall : current_size < 10) :
    10 ≤ calculate_font_size measure text max_width current_size min_size ∧
      current_size < calculate_font_size measure text max_width current_size min_size := by
  have hfloor : (10 : ℚ) ≤ tieredFloor current_size min_size := by
    have h24 : ¬ current_size ≥ 24 := by linarith
    have h16 : ¬ current_size ≥ 16 := by linarith
    simp only [tieredFloor, h24, h16, if_false, maxQ_eq_max]
    exact le_max_right _ _
  have hres := fit_ge_floor_of_overflow measure text max_width current_size min_size hblank hover
  exact ⟨le_trans hfloor hres, lt_of_lt_of_le hsmall (le_trans hfloor hres)⟩

/-- C9 witness: at 5pt with a badly overflowing text the result is 10pt. -/
theorem C9_witness :
    10 ≤ calculate_font_size (fun _ _ => 1000) "ab" 10 5 9 ∧
      (5 : ℚ) < calculate_font_size (fun _ _ => 1000) "ab" 10 5 9 :=
  C9_enlarges_small_fonts (fun _ _ => 1000) "ab" 10 5 9
    (by decide) (by norm_num) (by norm_num)

/-- C6: format normalization lowercases, trims, strips leading dots,
deduplicates preserving first occurrence, defaults an empty request to
["pptx"], and fails with a validation error naming the offending formats
when a normalized format is outside {pptx, pdf}; in particular
[".PDF", "pptx", "PPTX"] normalizes to ["pdf", "pptx"] with no
duplicates. -/
theorem C6_normalize_formats_behaviour :
    (_normalize_formats none = Except.ok ["pptx"] ∧
      _normalize_formats (some []) = Except.ok ["pptx"]) ∧
    _normalize_formats (some [".PDF", "pptx", "PPTX"]) = Except.ok ["pdf", "pptx"] ∧
    (∀ formats l, _normalize_formats formats = Except.ok l →
      l.Nodup ∧ ∀ x ∈ l, x ∈ ALLOWED_FORMATS) ∧
    (∀ formats e, _normalize_formats formats = Except.error e →
      e ≠ [] ∧ ∀ x ∈ e, x ∉ ALLOWED_FORMATS) := by
  refine ⟨⟨rfl, rfl⟩, rfl, ?_, ?_⟩
  · intro formats l h
    match formats with
    | none =>
        have h0 : _normalize_formats none = Except.ok ["pptx"] := rfl
        rw [h0] at h
        injection h with h
        subst h
        simp [ALLOWED_FORMATS]
    | some fmts =>
        by_cases hf : fmts = []
        · subst hf
          have h0 : _normalize_formats (some []) = Except.ok ["pptx"] := rfl
          rw [h0] at h
          injection h with h
          subst h
          simp [ALLOWED_FORMATS]
        · simp only [_normalize_formats, if_neg hf] at h
          by_cases hi :
              ((if fmts.foldl addFormat [] = [] then ["pptx"] else fmts.foldl addFormat []).filter
                (fun f => f ∉ ALLOWED_FORMATS)) = []
          · rw [if_pos hi] at h
            injection h with h
            subst h
            constructor
            · by_cases hn : fmts.foldl addFormat [] = []
              · simp [hn]
              · rw [if_neg hn]
                exact foldl_addFormat_nodup fmts [] List.nodup_nil
            · intro x hx
              have := List.filter_eq_nil_iff.mp hi x hx
              simpa using this
          · rw [if_neg hi] at h
            exact absurd h (by simp)
  · intro formats e h
    match formats with
    | none =>
        have h0 : _normalize_formats none = Except.ok ["pptx"] := rfl
        rw [h0] at h
        exact absurd h (by simp)
    | some fmts =>
        by_cases hf : fmts = []
        · subst hf
          have h0 : _normalize_formats (some []) = Except.ok ["pptx"] := rfl
          rw [h0] at h
          exact absurd h (by simp)
        · simp only [_normalize_formats, if_neg hf] at h
          by_cases hi :
              ((if fmts.foldl addFormat [] = [] then ["pptx"] else fmts.foldl addFormat []).filter
                (fun f => f ∉ ALLOWED_FORMATS)) = []
          · rw [if_pos hi] at h
            exact absurd h (by simp)
          · rw [if_neg hi] at h
            injection h with h
            subst h
            constructor
            · match he :
                  ((if fmts.foldl addFormat [] = [] then ["pptx"] else fmts.foldl addFormat []).filter
                    (fun f => f ∉ ALLOWED_FORMATS)) with
              | [] => exact absurd he hi
              | a :: rest => exact sortStrings_ne_nil a rest
            · intro x hx
              rw [mem_sortStrings] at hx
              have := List.of_mem_filter hx
              simpa using this

/-- C6 witness: the validated, deduplicated property applied to a concrete
accepted format list. -/
theorem C6_witness :
    (["pdf", "pptx"] : List String).Nodup ∧
      ∀ x ∈ (["pdf", "pptx"] : List String), x ∈ ALLOWED_FORMATS :=
  C6_normalize_formats_behaviour.2.2.1 (some [".PDF", "pptx", "PPTX"])
    ["pdf", "pptx"] rfl

/-- C1 (code bug): when the first non-blank run is sized exactly at the
container default (12.0 for a text frame) and a later run is sized 18.0,
the sentinel test `original_size == 12.0` still looks unset, so the later
run overwrites the baseline: the code computes baseline 18, while the
first encountered font size (the code's own stated intent) is 12.  The
same slip occurs for table cells with their default 10.0. -/
theorem C1_sentinel_overwrites_first_size :
    (processContainerRuns 12
        [(⟨"Hello", some 12⟩, RunEvent.resp (some ["Hola"])),
         (⟨"World", some 18⟩, RunEvent.resp (some ["Mundo"]))]).baseline = 18 ∧
      firstEncounteredSize 12 [⟨"Hello", some 12⟩, ⟨"World", some 18⟩] = 12 ∧
      (processContainerRuns 10
        [(⟨"Cell", some 10⟩, RunEvent.resp (some ["Celda"])),
         (⟨"Body", some 18⟩, RunEvent.resp (some ["Cuerpo"]))]).baseline = 18 ∧
      firstEncounteredSize 10 [⟨"Cell", some 10⟩, ⟨"Body", some 18⟩] = 10 ∧
      (18 : ℚ) ≠ 12 := by
  refine ⟨by decide, by decide, by decide, by decide, by norm_num⟩

/-- C2 counterexample: a provider call failure (response `none`) is
recovered inside `translate_with_google`, which returns the original text;
the walker cannot observe the failure and still increments the
translated-run count: the run text "Hello" is retained, but the count is
1, not 0 as the claim requires. -/
theorem C2_counterexample :
    (processContainerRuns 12 [(⟨"Hello", none⟩, RunEvent.resp none)]).runs
        = [⟨"Hello", none⟩] ∧
      (processContainerRuns 12 [(⟨"Hello", none⟩, RunEvent.resp none)]).count = 1 := by
  decide

/-- C2 amended: for every run whose translation raises an exception inside
the walker's per-run loop, the original text is retained and the count is
not incremented; but for a provider call failure that the Translation
Adapter recovers from by returning the original text, the original text is
retained while the count IS incremented (the walker cannot distinguish
recovery from success). -/
theorem C2_amended_run_failure_behaviour (dflt : ℚ) (st : ContState)
    (r : Run) (m : String)
    (hne : r.text ≠ "") (hblank : pyStrip r.text ≠ "") :
    ((stepRun dflt st (r, RunEvent.exn m)).runs = st.runs ++ [r] ∧
      (stepRun dflt st (r, RunEvent.exn m)).count = st.count) ∧
    ((stepRun dflt st (r, RunEvent.resp none)).runs = st.runs ++ [r] ∧
      (stepRun dflt st (r, RunEvent.resp none)).count = st.count + 1) := by
  have ht : translate_with_google r.text none = r.text := by
    simp [translate_with_google, hblank]
  constructor
  · simp [stepRun, hne, hblank]
  · simp [stepRun, hne, hblank, ht]

/-- C5: when every (trimmed) requested language processes without an
uncaught exception, the summary's translations map has exactly one entry
per distinct language code, in first-occurrence order: its key list is the
first-occurrence deduplication of the (stripped) request list, with no
duplicates. -/
theorem C5_languages_deduped_in_summary (env : OrchEnv) (input_file : String)
    (target_langs : List String) (formats : Option (List String))
    (output_root : Option String) (zip_output : Bool) (fmts : List String)
    (hin : env.inputExists = true)
    (hlang : cleanLanguages target_langs ≠ [])
    (hfmt : _normalize_formats formats = Except.ok fmts)
    (hpdf : "pdf" ∈ fmts → env.sofficeAvailable = true)
    (hok : ∀ l ∈ cleanLanguages target_langs, (env.behavior l).raises = none) :
    ∃ s, (translate_pptx_multi env input_file target_langs formats output_root zip_output).1
        = Except.ok s ∧
      s.translations.map Prod.fst = dedupFirst (cleanLanguages target_langs) ∧
      (s.translations.map Prod.fst).Nodup := by
  rw [translate_pptx_multi_ok_unfold env input_file target_langs formats output_root
    zip_output fmts hin hlang hfmt hpdf]
  have hkeys := foldl_processLanguage_keys_eq env
    (output_root.getD (input_file ++ "_translations")) input_file fmts
    (cleanLanguages target_langs)
    ⟨[], [], [output_root.getD (input_file ++ "_translations")], []⟩ hok
  refine ⟨_, rfl, ?_, ?_⟩
  · dsimp only
    rw [hkeys]
    rfl
  · dsimp only
    rw [hkeys]
    exact foldl_dedupStep_nodup _ _ List.nodup_nil

/-- C5 witness: languages ["es", "es", "fr"] give exactly the two keys
es, fr in that order. -/
theorem C5_witness :
    dedupFirst (cleanLanguages ["es", "es", "fr"]) = ["es", "fr"] ∧
    ∃ s, (translate_pptx_multi
        ⟨true, true, fun _ => ⟨none, 1, true, Except.ok "p"⟩, true⟩
        "deck" ["es", "es", "fr"] none none true).1 = Except.ok s ∧
      s.translations.map Prod.fst = dedupFirst (cleanLanguages ["es", "es", "fr"]) ∧
      (s.translations.map Prod.fst).Nodup :=
  ⟨by decide,
    C5_languages_deduped_in_summary
      ⟨true, true, fun _ => ⟨none, 1, true, Except.ok "p"⟩, true⟩
      "deck" ["es", "es", "fr"] none none true ["pptx"]
      rfl (by decide) rfl (by decide) (fun _ _ => rfl)⟩

/-- C7: when "pdf" is requested and the converter binary is unavailable,
the orchestrator raises `FileNotFoundError` before any translation work:
no output root or per-language directory is created, no language's loop
body starts, and the translations map stays empty. -/
theorem C7_pdf_without_converter_fails_fast (env : OrchEnv) (input_file : String)
    (target_langs : List String) (formats : Option (List String))
    (output_root : Option String) (zip_output : Bool) (fmts : List String)
    (hin : env.inputExists = true)
    (hlang : cleanLanguages target_langs ≠ [])
    (hfmt : _normalize_formats formats = Except.ok fmts)
    (hpdf : "pdf" ∈ fmts)
    (hsoff : env.sofficeAvailable = false) :
    (translate_pptx_multi env input_file target_langs formats output_root zip_output).1
        = Except.error "LibreOffice (soffice) not found." ∧
      (translate_pptx_multi env input_file target_langs formats output_root zip_output).2.dirs
        = [] ∧
      (translate_pptx_multi env input_file target_langs formats output_root
        zip_output).2.processed = [] ∧
      (translate_pptx_multi env input_file target_langs formats output_root
        zip_output).2.translations = [] := by
  unfold translate_pptx_multi
  rw [hfmt]
  simp [hin, hlang, hpdf, hsoff]

/-- C7 witness: pdf requested, soffice missing, nothing happens. -/
theorem C7_witness :
    (translate_pptx_multi ⟨true, false, fun _ => ⟨none, 0, false, Except.error "e"⟩, true⟩
        "deck" ["es"] (some ["pdf"]) none true).1
      = Except.error "LibreOffice (soffice) not found." ∧
      (translate_pptx_multi ⟨true, false, fun _ => ⟨none, 0, false, Except.error "e"⟩, true⟩
        "deck" ["es"] (some ["pdf"]) none true).2.dirs = [] ∧
      (translate_pptx_multi ⟨true, false, fun _ => ⟨none, 0, false, Except.error "e"⟩, true⟩
        "deck" ["es"] (some ["pdf"]) none true).2.processed = [] ∧
      (translate_pptx_multi ⟨true, false, fun _ => ⟨none, 0, false, Except.error "e"⟩, true⟩
        "deck" ["es"] (some ["pdf"]) none true).2.translations = [] :=
  C7_pdf_without_converter_fails_fast
    ⟨true, false, fun _ => ⟨none, 0, false, Except.error "e"⟩, true⟩
    "deck" ["es"] (some ["pdf"]) none true ["pdf"]
    rfl (by decide) rfl (by decide) rfl

/-- C8: any uncaught exception while processing one language is caught by
the orchestrator, recorded as the error string `f"{language}: {exc}"`, and
processing continues: a summary is still returned, and every language
whose body completed has its entry in the translations map. -/
theorem C8_language_failures_recorded_processing_continues (env : OrchEnv)
    (input_file : String) (target_langs : List String)
    (formats : Option (List String)) (output_root : Option String)
    (zip_output : Bool) (fmts : List String)
    (hin : env.inputExists = true)
    (hlang : cleanLanguages target_langs ≠ [])
    (hfmt : _normalize_formats formats = Except.ok fmts)
    (hpdf : "pdf" ∈ fmts → env.sofficeAvailable = true) :
    ∃ s, (translate_pptx_multi env input_file target_langs formats output_root zip_output).1
        = Except.ok s ∧
      (∀ lang ∈ cleanLanguages target_langs, ∀ m,
        (env.behavior lang).raises = some m → (lang ++ ": " ++ m) ∈ s.errors) ∧
      (∀ lang ∈ cleanLanguages target_langs,
        (env.behavior lang).raises = none → lang ∈ s.translations.map Prod.fst) := by
  rw [translate_pptx_multi_ok_unfold env input_file target_langs formats output_root
    zip_output fmts hin hlang hfmt hpdf]
  refine ⟨_, rfl, ?_, ?_⟩
  · intro lang hmem m hm
    dsimp only
    have hbase := foldl_processLanguage_error_of_raises env
      (output_root.getD (input_file ++ "_translations")) input_file fmts lang m hm
      (cleanLanguages target_langs)
      ⟨[], [], [output_root.getD (input_file ++ "_translations")], []⟩ hmem
    split
    · exact List.mem_append_left _ hbase
    · exact hbase
  · intro lang hmem hm
    dsimp only
    have hpair := foldl_processLanguage_pair_of_ok env
      (output_root.getD (input_file ++ "_translations")) input_file fmts lang hm
      (cleanLanguages target_langs)
      ⟨[], [], [output_root.getD (input_file ++ "_translations")], []⟩ hmem
    exact List.mem_map.mpr ⟨_, hpair, rfl⟩

/-- C8 witness: "de" raises, "fr" completes; both are visible in the
returned summary. -/
theorem C8_witness :
    ∃ s, (translate_pptx_multi
        ⟨true, true,
          fun l => if l = "de" then ⟨some "boom", 0, false, Except.error "e"⟩
            else ⟨none, 2, true, Except.ok "p"⟩, true⟩
        "deck" ["de", "fr"] none none true).1 = Except.ok s ∧
      (∀ lang ∈ cleanLanguages ["de", "fr"], ∀ m,
        ((fun l => if l = "de" then (⟨some "boom", 0, false, Except.error "e"⟩ : LangBehavior)
            else ⟨none, 2, true, Except.ok "p"⟩) lang).raises = some m →
          (lang ++ ": " ++ m) ∈ s.errors) ∧
      (∀ lang ∈ cleanLanguages ["de", "fr"],
        ((fun l => if l = "de" then (⟨some "boom", 0, false, Except.error "e"⟩ : LangBehavior)
            else ⟨none, 2, true, Except.ok "p"⟩) lang).raises = none →
          lang ∈ s.translations.map Prod.fst) :=
  C8_language_failures_recorded_processing_continues
    ⟨true, true,
      fun l => if l = "de" then ⟨some "boom", 0, false, Except.error "e"⟩
        else ⟨none, 2, true, Except.ok "p"⟩, true⟩
    "deck" ["de", "fr"] none none true ["pptx"]
    rfl (by decide) rfl (by decide)

/-- C10: for a language whose loop body completes, when "pptx" is among
the normalized formats the summary's entry maps "pptx" to the target
output path unconditionally — whatever the translated count and whether or
not the pptx file was actually saved — so the summary can report a pptx
path whose file was never written. -/
theorem C10_pptx_path_recorded_unconditionally (env : OrchEnv) (input_file : String)
    (target_langs : List String) (formats : Option (List String))
    (output_root : Option String) (zip_output : Bool) (fmts : List String)
    (lang : String)
    (hin : env.inputExists = true)
    (hlang : cleanLanguages target_langs ≠ [])
    (hfmt : _normalize_formats formats = Except.ok fmts)
    (hpdf : "pdf" ∈ fmts → env.sofficeAvailable = true)
    (hmem : lang ∈ cleanLanguages target_langs)
    (hok : (env.behavior lang).raises = none)
    (hpptx : "pptx" ∈ fmts) :
    ∃ s, (translate_pptx_multi env input_file target_langs formats output_root zip_output).1
        = Except.ok s ∧
      (lang, langValue env fmts (output_root.getD (input_file ++ "_translations"))
          input_file lang) ∈ s.translations ∧
      ("pptx", pptxPathOf (output_root.getD (input_file ++ "_translations")) input_file lang)
        ∈ (langValue env fmts (output_root.getD (input_file ++ "_translations"))
            input_file lang).outputs ∧
      (langValue env fmts (output_root.getD (input_file ++ "_translations"))
          input_file lang).count = (env.behavior lang).count := by
  rw [translate_pptx_multi_ok_unfold env input_file target_langs formats output_root
    zip_output fmts hin hlang hfmt hpdf]
  refine ⟨_, rfl, ?_, ?_, rfl⟩
  · dsimp only
    exact foldl_processLanguage_pair_of_ok env
      (output_root.getD (input_file ++ "_translations")) input_file fmts lang hok
      (cleanLanguages target_langs)
      ⟨[], [], [output_root.getD (input_file ++ "_translations")], []⟩ hmem
  · unfold langValue langOutputs
    rw [if_pos hpptx]
    exact List.mem_append_left _ (List.mem_singleton_self _)

/-- C10 witness: count 0 and no saved pptx file, yet the entry still maps
"pptx" to the output path. -/
theorem C10_witness :
    ∃ s, (translate_pptx_multi
        ⟨true, true, fun _ => ⟨none, 0, false, Except.error "e"⟩, true⟩
        "deck" ["es"] none none true).1 = Except.ok s ∧
      ("es", langValue ⟨true, true, fun _ => ⟨none, 0, false, Except.error "e"⟩, true⟩
          ["pptx"] ((none : Option String).getD ("deck" ++ "_translations")) "deck" "es")
        ∈ s.translations ∧
      ("pptx", pptxPathOf ((none : Option String).getD ("deck" ++ "_translations")) "deck" "es")
        ∈ (langValue ⟨true, true, fun _ => ⟨none, 0, false, Except.error "e"⟩, true⟩
            ["pptx"] ((none : Option String).getD ("deck" ++ "_translations")) "deck" "es").outputs ∧
      (langValue ⟨true, true, fun _ => ⟨none, 0, false, Except.error "e"⟩, true⟩
          ["pptx"] ((none : Option String).getD ("deck" ++ "_translations")) "deck" "es").count
        = ((⟨true, true, fun _ => ⟨none, 0, false, Except.error "e"⟩, true⟩ : OrchEnv).behavior
            "es").count :=
  C10_pptx_path_recorded_unconditionally
    ⟨true, true, fun _ => ⟨none, 0, false, Except.error "e"⟩, true⟩
    "deck" ["es"] none none true ["pptx"] "es"
    rfl (by decide) rfl (by decide) (by decide) rfl (by decide)

/-- C2 amended witness: one concrete run, one exception event and one
recovered call failure. -/
theorem C2_amended_witness :
    ((stepRun 12 ⟨[], 12, "", 0⟩ (⟨"Hi", some 14⟩, RunEvent.exn "boom")).runs
        = ([] : List Run) ++ [⟨"Hi", some 14⟩] ∧
      (stepRun 12 ⟨[], 12, "", 0⟩ (⟨"Hi", some 14⟩, RunEvent.exn "boom")).count = 0) ∧
    ((stepRun 12 ⟨[], 12, "", 0⟩ (⟨"Hi", some 14⟩, RunEvent.resp none)).runs
        = ([] : List Run) ++ [⟨"Hi", some 14⟩] ∧
      (stepRun 12 ⟨[], 12, "", 0⟩ (⟨"Hi", some 14⟩, RunEvent.resp none)).count = 0 + 1) :=
  C2_amended_run_failure_behaviour 12 ⟨[], 12, "", 0⟩ ⟨"Hi", some 14⟩ "boom"
    (by decide) (by decide)

end PptTranslator
